import Mathlib

/-!
Verification development for the Vive Lighthouse light-pulse decoder
(`src/vl_light.cpp`).  The C++ functions are shallowly embedded as Lean
functions: machine integers become `Nat`/`Int` with explicit `% 2^w`
where the C code performs modular (unsigned) arithmetic, and the
streaming loop of `process_lighthouse_samples` becomes a fold over an
explicit state record.

The only `double`-valued quantities of the decoder are tick epochs
(`median_timestamp` results, `last_pulse_epoch`, `epoch` fields).
Every such value is either the `-1e6` initialization or a median of
`u32` timestamps, i.e. an integer or an exact half-integer; both are
represented exactly by IEEE doubles, and every double operation the
code performs on them (add, subtract, divide by 2, compare, truncate)
is exact.  The embedding therefore represents each double tick value
`x` by the integer `2*x` ("half-tick units"); fields and parameters
holding such scaled values carry the suffix `2`.

The repository's headers (`vl_light.h`, `vl_messages.h`) are not part
of the provided sources; the record shapes and the few constants they
define are modelled from the specification where so noted.
-/

namespace VlLight

/-- RawEvent record (`vive_headset_lighthouse_pulse2`).  Fields modelled
from the spec data model: `timestamp : u32`, `sensor_id : u8`,
`length : u16`; represented as `Nat` with the `u32` wrap made explicit
at each arithmetic site that the C code performs in unsigned types. -/
structure Sample where
  timestamp : ℕ
  sensor_id : ℕ
  length : ℕ
deriving DecidableEq

def default_sample : Sample := ⟨0, 0, 0⟩

/-- Shared pulse/sweep group record (`vl_light_sample_group`): channel,
sweep (rotor), epoch, skip bit, sequence counter and member samples.
`epoch2` holds twice the double `epoch` value (half-tick units). -/
structure LightGroup where
  channel : Char
  sweep : Char
  epoch2 : ℤ
  skip : ℤ
  seq : ℤ
  samples : List Sample
deriving DecidableEq

/-- Modelled from the spec: value-initialized `vl_light_sample_group()`
(the struct is declared in the missing header `vl_light.h`); all scalar
fields zero, empty sample list. -/
def empty_group : LightGroup := ⟨Char.ofNat 0, Char.ofNat 0, 0, 0, 0, []⟩

def isempty (g : LightGroup) : Bool := decide (g.samples = [])

/-- Pulse class row (`lighthouse_sync_pulse`): nominal duration and the
decoded (skip, sweep/rotor, databit) triple. -/
structure SyncPulse where
  duration : ℕ
  skip : ℤ
  sweep : ℤ
  data : ℤ
deriving DecidableEq

/-- Modelled from the spec: value-initialized `lighthouse_sync_pulse()`
returned on classification failure (struct declared in the missing
header `vl_light.h`); per spec §4.2 the no-match result is the
fully-error class with skip = rotor = databit = −1. -/
def error_sync_pulse : SyncPulse := ⟨0, -1, -1, -1⟩

/-- The static 10-row pulse class table `pulse_table`. -/
def pulse_table : List SyncPulse :=
  [⟨2500, -1, -1, -1⟩,
   ⟨3000, 0, 0, 0⟩,
   ⟨3500, 0, 1, 0⟩,
   ⟨4000, 0, 0, 1⟩,
   ⟨4500, 0, 1, 1⟩,
   ⟨5000, 1, 0, 0⟩,
   ⟨5500, 1, 1, 0⟩,
   ⟨6000, 1, 0, 1⟩,
   ⟨6500, 1, 1, 1⟩,
   ⟨7000, -1, -1, -1⟩]

/-- `lookup_pulse_class`: linear scan for the first row with
`pulselen > duration - 250 && pulselen < duration + 250` (int
arithmetic after integral promotion); the error class on no match. -/
def lookup_pulse_class (pulselen : ℕ) : SyncPulse :=
  match pulse_table.find?
      (fun e => decide ((pulselen : ℤ) > (e.duration : ℤ) - 250) &&
                decide ((pulselen : ℤ) < (e.duration : ℤ) + 250)) with
  | some e => e
  | none => error_sync_pulse

/-- Specification model of the pulse classifier, written from the
spec's words for comparison with `lookup_pulse_class`: the first table
entry with `|L - duration| < 250`, else the fully-error class
`(-1, -1, -1)`. -/
def lookup_pulse_class_spec (pulselen : ℕ) : SyncPulse :=
  match pulse_table.find? (fun e => decide (|(pulselen : ℤ) - (e.duration : ℤ)| < 250)) with
  | some e => e
  | none => ⟨0, -1, -1, -1⟩

/-- The C++ `double`-to-integer conversion (truncation toward zero)
applied to a half-tick value `x2` representing the double `x2 / 2`. -/
def halftrunc (x2 : ℤ) : ℤ := if 0 ≤ x2 then x2 / 2 else -(-x2 / 2)

/-- Conversion of a signed integer to `uint32_t` (reduction mod 2^32). -/
def u32_of_int (x : ℤ) : ℕ := (x % 4294967296).toNat

/-- `uint32_t` addition `a + b` as the C code performs it on
`sample.timestamp + sample.length`. -/
def addu32 (a b : ℕ) : ℕ := (a + b) % 4294967296

/-- `median_timestamp`: sorts the timestamps (as doubles) and takes the
median, averaging the two central elements for even counts.  The result
is returned in half-tick units (twice the double value), which is
exact.  On an empty list the C code indexes out of bounds
(`size/2 - 1` wraps); modelled as `none`. -/
def median_timestamp (S : List Sample) : Option ℤ :=
  let ts := (S.map fun s => (s.timestamp : ℤ)).insertionSort (· ≤ ·)
  if ts.isEmpty then none
  else
    let n := ts.length
    if n % 2 = 0 then some (ts.getD (n / 2 - 1) 0 + ts.getD (n / 2) 0)
    else some (2 * ts.getD (n / 2) 0)

/-- `median_length`: the median of the `int64_t` lengths, with integer
(truncating) averaging of the two central elements for even counts
(unscaled: this median is integer-valued in the C code too). -/
def median_length (S : List Sample) : Option ℤ :=
  let ls := (S.map fun s => (s.length : ℤ)).insertionSort (· ≤ ·)
  if ls.isEmpty then none
  else
    let n := ls.length
    if n % 2 = 0 then some ((ls.getD (n / 2 - 1) 0 + ls.getD (n / 2) 0) / 2)
    else some (ls.getD (n / 2) 0)

/-- Modelled from the spec: `VL_TICK_RATE` and `VL_ROTOR_RPS` are
protocol constants from the missing header; spec §8 fixes
`TICK_RATE = 48000000`, `ROTOR_RPS = 60` for all concrete scenarios. -/
def VL_TICK_RATE : ℤ := 48000000

def VL_ROTOR_RPS : ℤ := 60

/-- `channel_detect`: classifies the gap `dt` between the previous
pulse time (a `uint32_t`) and the new pulse time (a `double`, given
here in half-ticks) as channel A, B, C or error.  `dt` is computed in
doubles and truncated to `int64_t`. -/
def channel_detect (last_pulse_time : ℕ) (new_pulse_time2 : ℤ) : Char :=
  let period : ℤ := VL_TICK_RATE / VL_ROTOR_RPS / 2
  let space : ℤ := 20000
  let dt : ℤ := halftrunc (new_pulse_time2 - 2 * (last_pulse_time : ℤ))
  if |dt - period| < 4000 then 'A'
  else if |dt - (period - space)| < 4000 then 'B'
  else if |dt - space| < 4000 then 'C'
  else 'e'

/-- `decode_pulse` then group assembly as in `process_pulse_set`: the
median length is narrowed to `uint16_t`, classified, the median
timestamp becomes the epoch, and the channel is detected from
`last_pulse` (an `int64_t`, further narrowed to `uint32_t` at the
`channel_detect` call).  Returns `none` exactly when the medians are
taken of an empty sample list (out-of-bounds in the C code). -/
def process_pulse_set (S : List Sample) (last_pulse : ℤ) : Option LightGroup :=
  match median_length S, median_timestamp S with
  | some ml, some t2 =>
    let pulselen : ℕ := (ml % 65536).toNat
    let pulse := lookup_pulse_class pulselen
    let ch := channel_detect (u32_of_int last_pulse) t2
    let sweep : Char := if pulse.sweep = 0 then 'H' else if pulse.sweep = 1 then 'V' else 'e'
    some ⟨ch, sweep, t2, pulse.skip, 0, []⟩
  | _, _ => none

/-- `update_pulse_state`: one step of the sweep-cycle state machine on a
flushed pulse set.  Returns the updated
`(last_pulse_epoch, current_sweep, seq, out_pulse)` (epochs in
half-ticks); `out_pulse` is the empty group unless a valid non-skip
pulse is emitted. -/
def update_pulse_state (pulse_samples : List Sample) (last_pulse_epoch2 : ℤ)
    (current_sweep : LightGroup) (seq : ℤ) : Option (ℤ × LightGroup × ℤ × LightGroup) :=
  match process_pulse_set pulse_samples (halftrunc last_pulse_epoch2) with
  | none => none
  | some pulse =>
    if pulse.channel = 'e' ∨ pulse_samples.length < 5 then
      some (pulse.epoch2, empty_group, seq, empty_group)
    else if pulse.skip = 0 then
      let seq' : ℤ :=
        if (pulse.channel = 'A' ∨ pulse.channel = 'B') ∧ pulse.sweep = 'H' then seq + 1 else seq
      some (pulse.epoch2, { pulse with samples := pulse_samples }, seq',
        ⟨pulse.channel, pulse.sweep, pulse.epoch2, 0, seq', pulse_samples⟩)
    else
      some (pulse.epoch2, current_sweep, seq, empty_group)

/-- Loop state of `process_lighthouse_samples`.  The C code buffers
indices into the input array (`pulse_inds`, `sweep_inds`) and
materializes `subset(D, inds)` at use sites; since indices are appended
in stream order, the buffers hold exactly the corresponding sample
sublists, which this embedding stores directly.  `median_fail` records
whether `update_pulse_state` was ever invoked on an empty pulse set
(the out-of-bounds median case); the pipeline never sets it. -/
structure PState where
  pulse_buf : List Sample
  sweep_buf : List Sample
  last_pulse_epoch2 : ℤ
  seq : ℤ
  current_sweep : LightGroup
  pulse_range : ℕ × ℕ
  pulses : List LightGroup
  sweeps : List LightGroup
  median_fail : Bool
deriving DecidableEq

/-- Initial loop state: `last_pulse_epoch = -1e6` (half-ticks:
`-2000000`), `pulse_range = {UINT32_MAX, 0}`. -/
def init_state : PState :=
  ⟨[], [], -2000000, 0, empty_group, (4294967295, 0), [], [], false⟩

/-- Flush the accumulated pulse set through `update_pulse_state`, clear
the accumulator, reset `pulse_range`, and emit the out-pulse if it is
non-empty (both flush sites of the C loop do exactly this). -/
def flush_pulse (st : PState) : PState :=
  match update_pulse_state st.pulse_buf st.last_pulse_epoch2 st.current_sweep st.seq with
  | some (l, cs, sq, pulse) =>
    { st with
      last_pulse_epoch2 := l
      current_sweep := cs
      seq := sq
      pulse_buf := []
      pulse_range := (4294967295, 0)
      pulses := if pulse.samples = [] then st.pulses else st.pulses ++ [pulse] }
  | none =>
    { st with
      median_fail := true
      pulse_buf := []
      pulse_range := (4294967295, 0) }

/-- The "store one sweep" block at the head of the pulse-sample branch:
if sweep samples are pending, materialize a sweep-group inheriting
channel, rotor and epoch from `current_sweep` and the running `seq`,
clear the sweep buffer, and emit it unless `current_sweep` is empty. -/
def store_sweep (st : PState) : PState :=
  if st.sweep_buf = [] then st
  else
    let sweep : LightGroup :=
      ⟨st.current_sweep.channel, st.current_sweep.sweep, st.current_sweep.epoch2,
        0, st.seq, st.sweep_buf⟩
    let st' := { st with sweep_buf := [] }
    if st'.current_sweep.samples = [] then st'
    else { st' with sweeps := st'.sweeps ++ [sweep] }

/-- Tail of the sweep-sample branch (after the conditional flush): drop
the event when `current_sweep` is empty, otherwise buffer it. -/
def step_sweep_tail (st : PState) (sample : Sample) : PState :=
  if st.current_sweep.samples = [] then st
  else { st with sweep_buf := st.sweep_buf ++ [sample] }

/-- Tail of the pulse-sample branch (after the sweep materialization):
admit the event into the current pulse set when the set is empty or the
event's interval overlaps `pulse_range`, otherwise flush the set (the
non-admitted event is dropped — the C code does not restart a set from
it). -/
def step_pulse_tail (st : PState) (sample : Sample) : PState :=
  if st.pulse_buf = [] ∨
      (sample.timestamp ≤ st.pulse_range.2 ∧
        st.pulse_range.1 ≤ addu32 sample.timestamp sample.length) then
    { st with
      pulse_range := (min st.pulse_range.1 sample.timestamp,
                      max st.pulse_range.2 (addu32 sample.timestamp sample.length))
      pulse_buf := st.pulse_buf ++ [sample] }
  else
    flush_pulse st

/-- One iteration of the `process_lighthouse_samples` loop body on the
next sample. -/
def step (st : PState) (sample : Sample) : PState :=
  if sample.length < 2000 then
    step_sweep_tail (if st.pulse_buf = [] then st else flush_pulse st) sample
  else
    step_pulse_tail (store_sweep st) sample

/-- Final loop state of `process_lighthouse_samples` on input `D`. -/
def run_state (D : List Sample) : PState := D.foldl step init_state

/-- `process_lighthouse_samples`: returns `(sweeps, pulses)`.  Note the
loop ends with no flush: whatever remains in the accumulators is
dropped. -/
def process_lighthouse_samples (D : List Sample) : List LightGroup × List LightGroup :=
  let st := run_state D
  (st.sweeps, st.pulses)

/-- `vl_angles`: per-sensor parallel angle/time sequences.  The struct
is declared in the missing header; modelled from the spec data model
(`SensorAngles` with sequences `x_ticks`, `y_ticks`, `t_ticks`): the
angle values are the `uint32_t` results of `ticks_sample_to_angle`, the
time entries record the (double) H-sweep epoch, in half-ticks. -/
structure VlAngles where
  x : List ℕ
  y : List ℕ
  t : List ℤ
deriving DecidableEq

def empty_angles : VlAngles := ⟨[], [], []⟩

/-- `find_max_seq`: maximum `seq` over the sweep list, 0 if empty. -/
def find_max_seq (sweeps : List LightGroup) : ℤ :=
  match sweeps.map (fun g => g.seq) with
  | [] => 0
  | q :: qs => qs.foldl max q

/-- `filter_sweeps`: the sweeps with the given channel, seq and rotor. -/
def filter_sweeps (sweeps : List LightGroup) (ch : Char) (seq : ℤ) (rotor : Char) :
    List LightGroup :=
  sweeps.filter fun g =>
    decide (g.channel = ch) && decide (g.seq = seq) && decide (g.sweep = rotor)

/-- `filter_samples_by_sensor_id`. -/
def filter_samples_by_sensor_id (samples : List Sample) (sensor_id : ℕ) : List Sample :=
  samples.filter fun s => decide (s.sensor_id = sensor_id)

/-- `ticks_sample_to_angle`: `timestamp + length/2 - epoch` computed in
`uint32_t` (addition and subtraction mod 2^32; `length/2` is the
truncating `int` division). -/
def ticks_sample_to_angle (sample : Sample) (epoch : ℕ) : ℕ :=
  ((((sample.timestamp : ℤ) + (sample.length / 2 : ℕ)) - (epoch : ℤ)) % 4294967296).toNat

/-- The `double` sweep epoch (half-ticks) converted to the `uint32_t`
parameter of `ticks_sample_to_angle` at each `collect_readings` call
site (truncation toward zero; all reachable epochs lie in
`[0, 2^32)`). -/
def epoch_to_u32 (e2 : ℤ) : ℕ := u32_of_int (halftrunc e2)

/-- One iteration of the sensor loop of `collect_readings`: look up the
(at most one) sample of sensor `s` in each of the paired sweeps, and if
both exist append the `(x, y, t)` triple to the sensor's entry.
`std::map<unsigned, vl_angles>` is modelled as a total function with
default `vl_angles()`; the code's `count`/`insert` dance followed by
`operator[]` is exactly "update the entry at key `s`". -/
def collect_sensor (x_sweep y_sweep : LightGroup) (R : ℕ → VlAngles) (s : ℕ) : ℕ → VlAngles :=
  let xi := filter_samples_by_sensor_id x_sweep.samples s
  let yi := filter_samples_by_sensor_id y_sweep.samples s
  if xi.length < 1 ∨ yi.length < 1 then R
  else
    let x_ang := ticks_sample_to_angle (xi.headD default_sample) (epoch_to_u32 x_sweep.epoch2)
    let y_ang := ticks_sample_to_angle (yi.headD default_sample) (epoch_to_u32 y_sweep.epoch2)
    fun q => if q = s then ⟨(R s).x ++ [x_ang], (R s).y ++ [y_ang], (R s).t ++ [x_sweep.epoch2]⟩
             else R q

/-- Inner sensor loop of `collect_readings` for one H/V sweep pair
(`for s in [0, 32)`). -/
def collect_inner (x_sweep y_sweep : LightGroup) (R : ℕ → VlAngles) : ℕ → VlAngles :=
  (List.range 32).foldl (collect_sensor x_sweep y_sweep) R

/-- The `sweep_i` loop of `collect_readings`: pairs the `sweep_i`-th H
sweep with the `sweep_i`-th V sweep; `y_sweeps.at(sweep_i)` throwing
`out_of_range` is the `continue` branch. -/
def collect_pairs (x_sweeps y_sweeps : List LightGroup) (R : ℕ → VlAngles) : ℕ → VlAngles :=
  (List.range x_sweeps.length).foldl (fun R sweep_i =>
    if sweep_i < y_sweeps.length then
      collect_inner (x_sweeps.getD sweep_i empty_group) (y_sweeps.getD sweep_i empty_group) R
    else R) R

/-- The sequence loop of `collect_readings` (`for i = 1; i < maxseq`),
with the early `break` when either filtered sweep list is empty. -/
def collect_loop (station : Char) (sweeps : List LightGroup) :
    ℕ → ℤ → (ℕ → VlAngles) → (ℕ → VlAngles)
  | 0, _, R => R
  | fuel + 1, i, R =>
    if (filter_sweeps sweeps station i 'H').length < 1 ∨
        (filter_sweeps sweeps station i 'V').length < 1 then R
    else
      collect_loop station sweeps fuel (i + 1)
        (collect_pairs (filter_sweeps sweeps station i 'H')
          (filter_sweeps sweeps station i 'V') R)

/-- `collect_readings` for a chosen station. -/
def collect_readings (station : Char) (sweeps : List LightGroup) : ℕ → VlAngles :=
  collect_loop station sweeps (find_max_seq sweeps - 1).toNat 1 (fun _ => empty_angles)

/-- `is_sample_valid`: drops the sentinel `{0xffffffff, 0xff, 0xffff}`. -/
def is_sample_valid (s : Sample) : Bool :=
  !(decide (s.timestamp = 4294967295) && decide (s.sensor_id = 255) &&
    decide (s.length = 65535))

/-- `filter_reports`: keep the samples passing the filter, in order. -/
def filter_reports (reports : List Sample) (filter_fun : Sample → Bool) : List Sample :=
  reports.filter filter_fun

/-! Interval predicates over pulse sets, used to state the cohesion
properties of emitted pulse-groups. -/

/-- Overlap of the `[timestamp, timestamp + length]` intervals of two
events, with the sum taken in `uint32_t` as the code does. -/
def intervals_overlap (a b : Sample) : Bool :=
  decide (a.timestamp ≤ addu32 b.timestamp b.length) &&
  decide (b.timestamp ≤ addu32 a.timestamp a.length)

/-- Pairwise interval overlap of every two members of a pulse set (the
spec's stated invariant). -/
def pairwise_overlap : List Sample → Bool
  | [] => true
  | a :: l => l.all (fun b => intervals_overlap a b) && pairwise_overlap l

/-- Extend a `(min_start, max_end)` span by one event, exactly as the
loop updates `pulse_range`. -/
def grow_range (r : ℕ × ℕ) (s : Sample) : ℕ × ℕ :=
  (min r.1 s.timestamp, max r.2 (addu32 s.timestamp s.length))

/-- The `pulse_range` span of a pulse set, seeded with the
`{UINT32_MAX, 0}` reset value. -/
def range_of (l : List Sample) : ℕ × ℕ := l.foldl grow_range (4294967295, 0)

/-- `chained_from r l`: every event of `l`, in order, overlaps the
running span started at `r` — the membership test the aggregator
applies when admitting a pulse event into the current set. -/
def chained_from (r : ℕ × ℕ) : List Sample → Bool
  | [] => true
  | s :: rest =>
    (decide (s.timestamp ≤ r.2) && decide (r.1 ≤ addu32 s.timestamp s.length)) &&
    chained_from (grow_range r s) rest

/-- A pulse set is chained when each event after the first overlaps the
span of the events before it (the first is admitted unconditionally,
into the reset span). -/
def chained : List Sample → Bool
  | [] => true
  | s :: rest => chained_from (grow_range (4294967295, 0) s) rest

/-- Loop invariant for pulse-set cohesion: the accumulator is chained
and `pulse_range` is exactly its span (reset value when empty), and
every emitted pulse-group is chained. -/
def pulse_set_invariant (st : PState) : Prop :=
  (st.pulse_buf = [] → st.pulse_range = (4294967295, 0)) ∧
  (st.pulse_buf ≠ [] →
    chained st.pulse_buf = true ∧ st.pulse_range = range_of st.pulse_buf) ∧
  (∀ g ∈ st.pulses, chained g.samples = true)

/-- Loop invariant for sweep inheritance: whenever `current_sweep` is
non-empty, some already-emitted pulse-group carries its channel, rotor
and epoch together with the *current* `seq`; and every emitted
sweep-group is matched by an emitted pulse-group the same way. -/
def sweep_inheritance_invariant (st : PState) : Prop :=
  (st.current_sweep.samples ≠ [] →
    ∃ p ∈ st.pulses,
      p.channel = st.current_sweep.channel ∧ p.sweep = st.current_sweep.sweep ∧
      p.epoch2 = st.current_sweep.epoch2 ∧ p.seq = st.seq) ∧
  (∀ s ∈ st.sweeps,
    ∃ p ∈ st.pulses,
      p.channel = s.channel ∧ p.sweep = s.sweep ∧ p.epoch2 = s.epoch2 ∧ p.seq = s.seq)

/-! Concrete inputs used by the claim counterexamples and witnesses. -/

/-- A pulse set of 5 events with median length 2700 (sentinel class row)
and median timestamp 400000. -/
def c1_samples : List Sample := (List.range 5).map fun k => ⟨400000, k, 2700⟩

/-- A non-empty current sweep in effect when `c1_samples` is flushed. -/
def c1_cs : LightGroup := ⟨'B', 'H', 200, 0, 0, [⟨1, 1, 2500⟩]⟩

/-- The group `process_pulse_set` produces for `c1_samples` with
`last_pulse = 0`: channel A (the gap is exactly one period), rotor
error, skip −1, epoch 400000 ticks (800000 half-ticks). -/
def c1_pulse : LightGroup := ⟨'A', 'e', 800000, -1, 0, []⟩

/-- Scenario S1 input: two 8-sensor pulse clusters (lengths 3000 and
3500) with sweep events after each, as the spec describes. -/
def s1_input : List Sample :=
  (List.range 8).map (fun k => ⟨0, k, 3000⟩) ++
  (List.range 8).map (fun k => ⟨200000 + k, k, 500⟩) ++
  (List.range 8).map (fun k => ⟨380000, k, 3500⟩) ++
  (List.range 8).map (fun k => ⟨580000 + k, k, 500⟩)

/-- The second S1 pulse cluster, as it appears in the emitted group. -/
def s1_pulse2 : List Sample := (List.range 8).map fun k => ⟨380000, k, 3500⟩

/-- A sacrificial first pulse set (the very first pulse always decodes
to channel error because of the `-1e6` sentinel wrap). -/
def c3_set1 : List Sample := (List.range 5).map fun k => ⟨5800, k, 3000⟩

/-- A second pulse set one rotor period after the first (channel A,
rotor H, classifiable), left unflushed at end of stream. -/
def c3_set2 : List Sample := (List.range 5).map fun k => ⟨405800, k, 3000⟩

/-- End-of-stream input: the stream ends while `c3_set2` sits in the
pulse accumulator. -/
def c3_input : List Sample := c3_set1 ++ [⟨50000, 0, 500⟩] ++ c3_set2

/-- Chained-but-not-pairwise-overlapping pulse set: each event overlaps
the running span of its predecessors, but the first and last events are
disjoint. -/
def c6_set2 : List Sample :=
  [⟨400000, 0, 3000⟩, ⟨402900, 1, 3000⟩, ⟨405800, 2, 3000⟩,
   ⟨408700, 3, 3000⟩, ⟨411600, 4, 3000⟩]

/-- Input whose single emitted pulse-group has member events with
non-overlapping intervals. -/
def c6_input : List Sample := c3_set1 ++ [⟨50000, 0, 500⟩] ++ c6_set2 ++ [⟨500000, 0, 500⟩]

/-- The pulse-group emitted on `c6_input` (epoch 405800 ticks). -/
def c6_group : LightGroup := ⟨'A', 'H', 811600, 0, 1, c6_set2⟩

/-- Input producing one emitted pulse-group and one emitted sweep-group
(a trailing pulse event materializes the sweep). -/
def c7_input : List Sample :=
  c3_set1 ++ [⟨50000, 0, 500⟩] ++ c3_set2 ++ [⟨500000, 5, 500⟩] ++ [⟨700000, 0, 3000⟩]

/-- The sweep-group emitted on `c7_input` (epoch 405800 ticks). -/
def c7_sweep : LightGroup := ⟨'A', 'H', 811600, 0, 1, [⟨500000, 5, 500⟩]⟩

/-- A duplicated H sweep for (B, seq 1), epoch 200000 ticks. -/
def c4_h1 : LightGroup := ⟨'B', 'H', 400000, 0, 1, [⟨200100, 0, 200⟩]⟩

/-- A duplicated V sweep for (B, seq 1), epoch 600000 ticks. -/
def c4_v1 : LightGroup := ⟨'B', 'V', 1200000, 0, 1, [⟨600060, 0, 120⟩]⟩

/-- A (B, seq 2) sweep that makes `find_max_seq = 2` so that sequence 1
is processed. -/
def c4_h2 : LightGroup := ⟨'B', 'H', 1400000, 0, 2, []⟩

/-- Sweep list with two H and two V sweeps for (B, seq 1). -/
def c4_sweeps : List LightGroup := [c4_h1, c4_h1, c4_v1, c4_v1, c4_h2]

/-- Sweep list with exactly one H and one V sweep for (B, seq 1). -/
def c4w_sweeps : List LightGroup := [c4_h1, c4_v1, c4_h2]

set_option maxRecDepth 40000

/-! Helper lemmas about the embedded definitions. -/

lemma isEmpty_congr {α β : Type} (l₁ : List α) (l₂ : List β) (h : l₁.length = l₂.length) :
    l₁.isEmpty = l₂.isEmpty := by
  cases l₁ <;> cases l₂ <;> simp_all

lemma median_timestamp_isSome (S : List Sample) : (median_timestamp S).isSome = !S.isEmpty := by
  have h : ((S.map fun s => (s.timestamp : ℤ)).insertionSort (· ≤ ·)).isEmpty = S.isEmpty := by
    apply isEmpty_congr
    rw [List.length_insertionSort, List.length_map]
  simp only [median_timestamp, h]
  cases hS : S.isEmpty
  · rw [if_neg Bool.false_ne_true]
    split <;> rfl
  · rfl

lemma median_length_isSome (S : List Sample) : (median_length S).isSome = !S.isEmpty := by
  have h : ((S.map fun s => (s.length : ℤ)).insertionSort (· ≤ ·)).isEmpty = S.isEmpty := by
    apply isEmpty_congr
    rw [List.length_insertionSort, List.length_map]
  simp only [median_length, h]
  cases hS : S.isEmpty
  · rw [if_neg Bool.false_ne_true]
    split <;> rfl
  · rfl

lemma process_pulse_set_isSome (S : List Sample) (last : ℤ) (h : S ≠ []) :
    ∃ p, process_pulse_set S last = some p ∧ p.samples = [] := by
  have hne : S.isEmpty = false := by cases S with
    | nil => exact absurd rfl h
    | cons a l => rfl
  have h1 : (median_length S).isSome = true := by rw [median_length_isSome, hne]; rfl
  have h2 : (median_timestamp S).isSome = true := by rw [median_timestamp_isSome, hne]; rfl
  obtain ⟨ml, hml⟩ := Option.isSome_iff_exists.mp h1
  obtain ⟨t2, ht2⟩ := Option.isSome_iff_exists.mp h2
  unfold process_pulse_set
  rw [hml, ht2]
  exact ⟨_, rfl, rfl⟩

lemma process_pulse_set_empty (last : ℤ) : process_pulse_set [] last = none := by
  rfl

lemma update_pulse_state_eq (S : List Sample) (l : ℤ) (cs : LightGroup) (q : ℤ)
    (p : LightGroup) (hp : process_pulse_set S (halftrunc l) = some p) :
    update_pulse_state S l cs q =
      if p.channel = 'e' ∨ S.length < 5 then some (p.epoch2, empty_group, q, empty_group)
      else if p.skip = 0 then
        some (p.epoch2, { p with samples := S },
          (if (p.channel = 'A' ∨ p.channel = 'B') ∧ p.sweep = 'H' then q + 1 else q),
          ⟨p.channel, p.sweep, p.epoch2, 0,
            (if (p.channel = 'A' ∨ p.channel = 'B') ∧ p.sweep = 'H' then q + 1 else q), S⟩)
      else some (p.epoch2, cs, q, empty_group) := by
  unfold update_pulse_state
  rw [hp]

lemma flush_pulse_eq (st : PState) (p : LightGroup)
    (hp : process_pulse_set st.pulse_buf (halftrunc st.last_pulse_epoch2) = some p) :
    flush_pulse st =
      if p.channel = 'e' ∨ st.pulse_buf.length < 5 then
        { st with
          last_pulse_epoch2 := p.epoch2
          current_sweep := empty_group
          pulse_buf := []
          pulse_range := (4294967295, 0) }
      else if p.skip = 0 then
        { st with
          last_pulse_epoch2 := p.epoch2
          current_sweep := { p with samples := st.pulse_buf }
          seq := if (p.channel = 'A' ∨ p.channel = 'B') ∧ p.sweep = 'H' then st.seq + 1 else st.seq
          pulse_buf := []
          pulse_range := (4294967295, 0)
          pulses := st.pulses ++ [⟨p.channel, p.sweep, p.epoch2, 0,
            (if (p.channel = 'A' ∨ p.channel = 'B') ∧ p.sweep = 'H' then st.seq + 1 else st.seq),
            st.pulse_buf⟩] }
      else
        { st with
          last_pulse_epoch2 := p.epoch2
          pulse_buf := []
          pulse_range := (4294967295, 0) } := by
  have hne : st.pulse_buf ≠ [] := by
    intro h
    rw [h, process_pulse_set_empty] at hp
    exact Option.noConfusion hp
  unfold flush_pulse
  rw [update_pulse_state_eq _ _ _ _ _ hp]
  by_cases hc : p.channel = 'e' ∨ st.pulse_buf.length < 5
  · rw [if_pos hc, if_pos hc]
    rfl
  · rw [if_neg hc, if_neg hc]
    by_cases hs : p.skip = 0
    · rw [if_pos hs, if_pos hs]
      simp only [if_neg hne]
    · rw [if_neg hs, if_neg hs]
      rfl

lemma store_sweep_cases (st : PState) :
    store_sweep st = st ∨
    store_sweep st = { st with sweep_buf := [] } ∨
    (st.current_sweep.samples ≠ [] ∧
      store_sweep st = { st with
        sweep_buf := []
        sweeps := st.sweeps ++ [⟨st.current_sweep.channel, st.current_sweep.sweep,
          st.current_sweep.epoch2, 0, st.seq, st.sweep_buf⟩] }) := by
  unfold store_sweep
  by_cases h1 : st.sweep_buf = []
  · left; rw [if_pos h1]
  · rw [if_neg h1]
    by_cases h2 : st.current_sweep.samples = []
    · right; left; simp only [if_pos h2]
    · right; right; exact ⟨h2, by simp only [if_neg h2]⟩

lemma store_sweep_pulse_buf (st : PState) : (store_sweep st).pulse_buf = st.pulse_buf := by
  rcases store_sweep_cases st with h | h | ⟨-, h⟩ <;> rw [h]

lemma store_sweep_pulse_range (st : PState) : (store_sweep st).pulse_range = st.pulse_range := by
  rcases store_sweep_cases st with h | h | ⟨-, h⟩ <;> rw [h]

lemma store_sweep_current_sweep (st : PState) :
    (store_sweep st).current_sweep = st.current_sweep := by
  rcases store_sweep_cases st with h | h | ⟨-, h⟩ <;> rw [h]

lemma store_sweep_seq (st : PState) : (store_sweep st).seq = st.seq := by
  rcases store_sweep_cases st with h | h | ⟨-, h⟩ <;> rw [h]

lemma store_sweep_pulses (st : PState) : (store_sweep st).pulses = st.pulses := by
  rcases store_sweep_cases st with h | h | ⟨-, h⟩ <;> rw [h]

lemma store_sweep_epoch (st : PState) :
    (store_sweep st).last_pulse_epoch2 = st.last_pulse_epoch2 := by
  rcases store_sweep_cases st with h | h | ⟨-, h⟩ <;> rw [h]

lemma store_sweep_median_fail (st : PState) : (store_sweep st).median_fail = st.median_fail := by
  rcases store_sweep_cases st with h | h | ⟨-, h⟩ <;> rw [h]

lemma foldl_step_invariant {P : PState → Prop} (hstep : ∀ st x, P st → P (step st x)) :
    ∀ (D : List Sample) (st : PState), P st → P (D.foldl step st) := by
  intro D
  induction D with
  | nil => exact fun st h => h
  | cons a l ih => exact fun st h => ih _ (hstep _ _ h)

lemma flush_pulse_median_fail (st : PState) (h : st.pulse_buf ≠ []) :
    (flush_pulse st).median_fail = st.median_fail := by
  obtain ⟨p, hp, -⟩ :=
    process_pulse_set_isSome st.pulse_buf (halftrunc st.last_pulse_epoch2) h
  rw [flush_pulse_eq st p hp]
  split
  · rfl
  · split <;> rfl

lemma step_sweep_tail_median_fail (st : PState) (x : Sample) :
    (step_sweep_tail st x).median_fail = st.median_fail := by
  unfold step_sweep_tail
  split <;> rfl

lemma step_median_fail (st : PState) (x : Sample) :
    (step st x).median_fail = st.median_fail := by
  unfold step
  by_cases hl : x.length < 2000
  · rw [if_pos hl, step_sweep_tail_median_fail]
    by_cases hb : st.pulse_buf = []
    · rw [if_pos hb]
    · rw [if_neg hb]
      exact flush_pulse_median_fail st hb
  · rw [if_neg hl]
    unfold step_pulse_tail
    by_cases hadm : (store_sweep st).pulse_buf = [] ∨
        (x.timestamp ≤ (store_sweep st).pulse_range.2 ∧
          (store_sweep st).pulse_range.1 ≤ addu32 x.timestamp x.length)
    · rw [if_pos hadm]
      exact store_sweep_median_fail st
    · rw [if_neg hadm]
      have hb : (store_sweep st).pulse_buf ≠ [] := fun h => hadm (Or.inl h)
      rw [flush_pulse_median_fail _ hb]
      exact store_sweep_median_fail st

/-! Claim theorems. -/

/-- C2: for every pulse length L, `lookup_pulse_class` returns the
first table entry with `|L − duration| < 250` (the strict ±250 window),
and when no entry matches it returns the fully-error class
`(skip, rotor, databit) = (−1, −1, −1)`. -/
theorem claim2_lookup_pulse_class_window :
    (∀ L : ℕ, lookup_pulse_class L = lookup_pulse_class_spec L) ∧
    (∀ L : ℕ, (∀ e ∈ pulse_table, ¬ |(L : ℤ) - (e.duration : ℤ)| < 250) →
      lookup_pulse_class L = ⟨0, -1, -1, -1⟩) := by
  have hpt : ∀ (L : ℕ) (e : SyncPulse),
      (decide ((L : ℤ) > (e.duration : ℤ) - 250) &&
        decide ((L : ℤ) < (e.duration : ℤ) + 250)) =
      decide (|(L : ℤ) - (e.duration : ℤ)| < 250) := by
    intro L e
    rw [← Bool.decide_and, decide_eq_decide, abs_lt]
    omega
  have hcg : ∀ (L : ℕ) (l : List SyncPulse),
      (l.find? fun e => decide ((L : ℤ) > (e.duration : ℤ) - 250) &&
        decide ((L : ℤ) < (e.duration : ℤ) + 250)) =
      (l.find? fun e => decide (|(L : ℤ) - (e.duration : ℤ)| < 250)) := by
    intro L l
    induction l with
    | nil => rfl
    | cons a l ih =>
      rw [List.find?_cons, List.find?_cons, hpt L a]
      cases hq : decide (|(L : ℤ) - (a.duration : ℤ)| < 250)
      · exact ih
      · rfl
  constructor
  · intro L
    unfold lookup_pulse_class lookup_pulse_class_spec
    rw [hcg L pulse_table]
    cases pulse_table.find? fun e => decide (|(L : ℤ) - (e.duration : ℤ)| < 250) <;> rfl
  · intro L h
    unfold lookup_pulse_class
    have hn : (pulse_table.find? fun e => decide ((L : ℤ) > (e.duration : ℤ) - 250) &&
        decide ((L : ℤ) < (e.duration : ℤ) + 250)) = none := by
      rw [hcg L pulse_table]
      exact List.find?_eq_none.mpr fun e he => by
        simp only [decide_eq_true_eq]
        exact h e he
    rw [hn]
    rfl

/-- C2 witness: L = 2750 is outside every window (it is exactly 250
from both 2500 and 3000), and the classifier returns the fully-error
class on it. -/
theorem claim2_witness :
    lookup_pulse_class 2750 = ⟨0, -1, -1, -1⟩ :=
  claim2_lookup_pulse_class_window.2 2750 (by decide)

/-- C8: the sanitizer `filter_reports · is_sample_valid` is idempotent:
filtering an already-filtered sample list changes nothing. -/
theorem claim8_sanitize_idempotent (S : List Sample) :
    filter_reports (filter_reports S is_sample_valid) is_sample_valid =
      filter_reports S is_sample_valid := by
  simp [filter_reports, List.filter_filter]

/-- C9: the medians are defined (`some`) exactly on non-empty sample
lists (the C code indexes out of bounds on the empty even-size branch),
and the pipeline never invokes `update_pulse_state` — hence never takes
a median — of an empty pulse set: the `median_fail` poison flag is
never set by `run_state`. -/
theorem claim9_median_defined_and_guarded :
    (∀ S : List Sample,
      (median_timestamp S).isSome = !S.isEmpty ∧ (median_length S).isSome = !S.isEmpty) ∧
    (∀ D : List Sample, (run_state D).median_fail = false) := by
  constructor
  · exact fun S => ⟨median_timestamp_isSome S, median_length_isSome S⟩
  · intro D
    exact foldl_step_invariant (P := fun st => st.median_fail = false)
      (fun st x h => (step_median_fail st x).trans h) D init_state rfl

/-- C10: `ticks_sample_to_angle` computes `timestamp + length/2 − epoch`
in unsigned 32-bit modular arithmetic with the double sweep epoch
truncated to `u32` (`epoch_to_u32`, as at both `collect_readings` call
sites); whenever the truncated epoch exceeds `timestamp + length/2` the
result wraps modulo 2^32 — it equals
`timestamp + length/2 + 2^32 − epoch` and stays in `[0, 2^32)` instead
of being negative or an error. -/
theorem claim10_angle_wraps_mod_u32 (s : Sample) (e2 : ℤ)
    (hts : s.timestamp < 4294967296) (hlen : s.length < 65536)
    (he0 : 0 ≤ e2) (he : halftrunc e2 < 4294967296)
    (hgt : s.timestamp + s.length / 2 < epoch_to_u32 e2) :
    (ticks_sample_to_angle s (epoch_to_u32 e2) : ℤ) =
      (s.timestamp : ℤ) + (s.length / 2 : ℕ) + 4294967296 - (epoch_to_u32 e2 : ℤ) ∧
    ticks_sample_to_angle s (epoch_to_u32 e2) < 4294967296 := by
  have h2 : halftrunc e2 = e2 / 2 := if_pos he0
  have hlt : e2 / 2 < 4294967296 := h2 ▸ he
  have hnn : (0 : ℤ) ≤ e2 / 2 := Int.ediv_nonneg he0 (by norm_num)
  have hmod : e2 / 2 % 4294967296 = e2 / 2 := Int.emod_eq_of_lt hnn hlt
  have hep : epoch_to_u32 e2 = (e2 / 2).toNat := by
    unfold epoch_to_u32 u32_of_int
    rw [h2, hmod]
  rw [hep] at hgt ⊢
  unfold ticks_sample_to_angle
  omega

/-- C10 witness: sensor sample at timestamp 100, length 50, sweep epoch
200000 (half-ticks 400000): the truncated epoch 200000 exceeds
`100 + 25`, and the recorded angle is the wrapped value
`125 + 2^32 − 200000 = 4294767421`. -/
theorem claim10_witness :
    (ticks_sample_to_angle ⟨100, 0, 50⟩ (epoch_to_u32 400000) : ℤ) =
      ((100 : ℕ) : ℤ) + ((50 / 2 : ℕ) : ℕ) + 4294967296 - (epoch_to_u32 400000 : ℤ) ∧
    ticks_sample_to_angle ⟨100, 0, 50⟩ (epoch_to_u32 400000) < 4294967296 :=
  claim10_angle_wraps_mod_u32 ⟨100, 0, 50⟩ 400000 (by decide) (by decide) (by decide)
    (by decide) (by decide)

/-- C1 counterexample: a flushed pulse set of 5 events with median
length 2700 (unclassified: the classifier returns the sentinel
fully-error row, skip = −1), arriving exactly one rotor period after
the previous pulse.  The detected channel is 'A' — not err — and the
state machine returns `current_sweep` unchanged (and non-empty) instead
of clearing it; only the group emission is suppressed.  This refutes
both "the channel becomes err" and "`current_sweep` is cleared". -/
theorem claim1_counterexample :
    median_length c1_samples = some 2700 ∧
    process_pulse_set c1_samples 0 = some c1_pulse ∧
    c1_pulse.channel = 'A' ∧
    c1_pulse.skip = -1 ∧
    update_pulse_state c1_samples 0 c1_cs 0 = some (800000, c1_cs, 0, empty_group) ∧
    c1_cs.samples ≠ [] := by
  refine ⟨by decide, by decide, by decide, by decide, by decide, by decide⟩

/-- C1 (amended): for every flushed pulse set whose classified skip bit
is non-zero — in particular the unclassified case skip = −1 — the state
machine emits no pulse-group and leaves `seq` unchanged;
`current_sweep` is cleared only when, additionally, the detected
channel is err or the set has fewer than 5 events, and is otherwise
retained unchanged (the unclassified pulse behaves like a skip pulse).
For median length 2700 specifically the classifier returns the sentinel
fully-error row, but the channel is computed from the timing gap
independently and need not be err. -/
theorem claim1_unclassified_pulse_not_emitted (S : List Sample) (l : ℤ) (cs : LightGroup)
    (q : ℤ) (p : LightGroup)
    (hp : process_pulse_set S (halftrunc l) = some p) (hskip : p.skip ≠ 0) :
    update_pulse_state S l cs q =
      some (p.epoch2, (if p.channel = 'e' ∨ S.length < 5 then empty_group else cs), q,
        empty_group) := by
  rw [update_pulse_state_eq S l cs q p hp]
  by_cases hc : p.channel = 'e' ∨ S.length < 5
  · rw [if_pos hc, if_pos hc]
  · rw [if_neg hc, if_neg hc, if_neg hskip]

/-- C1 witness: the amended statement applied to the concrete
median-2700 pulse set. -/
theorem claim1_witness :
    update_pulse_state c1_samples 0 c1_cs 0 =
      some (c1_pulse.epoch2,
        (if c1_pulse.channel = 'e' ∨ c1_samples.length < 5 then empty_group else c1_cs), 0,
        empty_group) :=
  claim1_unclassified_pulse_not_emitted c1_samples 0 c1_cs 0 c1_pulse (by decide) (by decide)

/-- C5 counterexample: on the S1 scenario input the decoder does not
emit 2 pulse-groups and 2 sweep-groups — it emits exactly one
pulse-group and no sweep-group (the first pulse cluster decodes to
channel err because the `-1e6` last-pulse sentinel wraps through
`uint32_t`, and the trailing sweep buffer is discarded at end of
stream). -/
theorem claim5_counterexample :
    (process_lighthouse_samples s1_input).2.length = 1 ∧
    (process_lighthouse_samples s1_input).1.length = 0 ∧
    ¬((process_lighthouse_samples s1_input).2.length = 2 ∧
      (process_lighthouse_samples s1_input).1.length = 2) := by
  refine ⟨by decide, by decide, by decide⟩

/-- C5 (amended): on scenario S1's input (TICK_RATE 48000000, ROTOR_RPS
60) the decoder emits exactly one pulse-group — channel B, rotor V,
epoch 380000 (half-ticks 760000), seq still 0 — and no sweep-groups:
the first pulse cluster is dropped with channel err (clearing
`current_sweep`, so the first sweeps are dropped), the second cluster
classifies as B via the `dt = period − space` branch, its rotor V pulse
does not increment `seq`, and the trailing sweep events are discarded
at end of stream. -/
theorem claim5_s1_actual_output :
    process_lighthouse_samples s1_input =
      ([], [⟨'B', 'V', 760000, 0, 0, s1_pulse2⟩]) := by
  decide

/-- C3 counterexample: `c3_input` ends while a valid, classifiable
pulse set (`c3_set2`) sits in the accumulator; no pulse-group at all is
emitted.  Appending one more sweep event — which forces the flush the
spec claims happens at end of stream — makes that same set produce an
emitted pulse-group, so the trailing set was valid but was discarded,
not flushed. -/
theorem claim3_counterexample :
    (process_lighthouse_samples c3_input).2 = [] ∧
    (process_lighthouse_samples (c3_input ++ [⟨500000, 0, 500⟩])).2.length = 1 := by
  refine ⟨by decide, by decide⟩

/-- C4 counterexample: with two H and two V sweeps for (channel B,
seq 1) — and a seq-2 sweep so the sequence is processed — sensor 0
receives two `(x, y, t)` triples for the single processed sequence: the
collator pairs the k-th H sweep with the k-th V sweep for every k, it
does not proceed with entry 0 only. -/
theorem claim4_counterexample :
    (collect_readings 'B' c4_sweeps 0).x.length = 2 ∧
    ¬ (collect_readings 'B' c4_sweeps 0).x.length ≤ 1 := by
  refine ⟨by decide, by decide⟩

/-- C6 counterexample: the single pulse-group emitted on `c6_input`
contains the events `⟨400000, 0, 3000⟩` and `⟨411600, 4, 3000⟩`, whose
`[timestamp, timestamp+length]` intervals are disjoint: pairwise
overlap does not hold within an emitted pulse-group. -/
theorem claim6_counterexample :
    (process_lighthouse_samples c6_input).2 = [c6_group] ∧
    (⟨400000, 0, 3000⟩ : Sample) ∈ c6_group.samples ∧
    (⟨411600, 4, 3000⟩ : Sample) ∈ c6_group.samples ∧
    intervals_overlap ⟨400000, 0, 3000⟩ ⟨411600, 4, 3000⟩ = false ∧
    pairwise_overlap c6_group.samples = false := by
  refine ⟨by decide, by decide, by decide, by decide, by decide⟩

/-- C3 (amended): the remaining pulse accumulator is discarded at end
of stream, not flushed: appending one more pulse event that joins the
trailing pulse set (the sweep buffer being empty) never changes the
emitted output. -/
theorem claim3_no_flush_at_end (D : List Sample) (p : Sample)
    (hlen : ¬ p.length < 2000)
    (hsw : (run_state D).sweep_buf = [])
    (hpb : (run_state D).pulse_buf ≠ [])
    (h1 : p.timestamp ≤ (run_state D).pulse_range.2)
    (h2 : (run_state D).pulse_range.1 ≤ addu32 p.timestamp p.length) :
    process_lighthouse_samples (D ++ [p]) = process_lighthouse_samples D := by
  have hrun : run_state (D ++ [p]) = step (run_state D) p := by
    unfold run_state
    rw [List.foldl_append]
    rfl
  have hss : store_sweep (run_state D) = run_state D := by
    unfold store_sweep
    rw [if_pos hsw]
  unfold process_lighthouse_samples
  rw [hrun]
  unfold step
  rw [if_neg hlen, hss]
  unfold step_pulse_tail
  rw [if_pos (Or.inr ⟨h1, h2⟩)]

/-- C3 witness: the amended no-flush statement applied to `c3_input`
and an overlapping trailing pulse event. -/
theorem claim3_witness :
    process_lighthouse_samples (c3_input ++ [⟨405800, 9, 3000⟩]) =
      process_lighthouse_samples c3_input :=
  claim3_no_flush_at_end c3_input ⟨405800, 9, 3000⟩ (by decide) (by decide) (by decide)
    (by decide) (by decide)

/-! Lemmas for the chained-pulse-set invariant (C6). -/

lemma chained_from_append (s : Sample) : ∀ (l : List Sample) (r : ℕ × ℕ),
    chained_from r (l ++ [s]) =
      (chained_from r l &&
        (decide (s.timestamp ≤ (l.foldl grow_range r).2) &&
         decide ((l.foldl grow_range r).1 ≤ addu32 s.timestamp s.length))) := by
  intro l
  induction l with
  | nil => intro r; simp [chained_from]
  | cons a l ih =>
    intro r
    have h1 : chained_from r ((a :: l) ++ [s]) =
        ((decide (a.timestamp ≤ r.2) && decide (r.1 ≤ addu32 a.timestamp a.length)) &&
          chained_from (grow_range r a) (l ++ [s])) := rfl
    have h2 : chained_from r (a :: l) =
        ((decide (a.timestamp ≤ r.2) && decide (r.1 ≤ addu32 a.timestamp a.length)) &&
          chained_from (grow_range r a) l) := rfl
    have h3 : (a :: l).foldl grow_range r = l.foldl grow_range (grow_range r a) := rfl
    rw [h1, h2, h3, ih (grow_range r a), ← Bool.and_assoc]

lemma range_of_append (l : List Sample) (s : Sample) :
    range_of (l ++ [s]) = grow_range (range_of l) s := by
  unfold range_of
  rw [List.foldl_append]
  rfl

lemma chained_singleton (s : Sample) : chained [s] = true := rfl

lemma chained_append (l : List Sample) (s : Sample) (h : chained l = true)
    (hov : s.timestamp ≤ (range_of l).2 ∧ (range_of l).1 ≤ addu32 s.timestamp s.length) :
    chained (l ++ [s]) = true := by
  cases l with
  | nil => rfl
  | cons a l =>
    show chained_from (grow_range (4294967295, 0) a) (l ++ [s]) = true
    rw [chained_from_append]
    have h' : chained_from (grow_range (4294967295, 0) a) l = true := h
    have hr : range_of (a :: l) = l.foldl grow_range (grow_range (4294967295, 0) a) := rfl
    rw [h', Bool.true_and, ← hr, decide_eq_true hov.1, decide_eq_true hov.2]
    rfl

lemma flush_pulse_inv6 (st : PState) (hbuf : st.pulse_buf ≠ [])
    (h : pulse_set_invariant st) : pulse_set_invariant (flush_pulse st) := by
  obtain ⟨p, hp, -⟩ :=
    process_pulse_set_isSome st.pulse_buf (halftrunc st.last_pulse_epoch2) hbuf
  rw [flush_pulse_eq st p hp]
  by_cases hc : p.channel = 'e' ∨ st.pulse_buf.length < 5
  · rw [if_pos hc]
    exact ⟨fun _ => rfl, fun hne => absurd rfl hne, h.2.2⟩
  · rw [if_neg hc]
    by_cases hs : p.skip = 0
    · rw [if_pos hs]
      refine ⟨fun _ => rfl, fun hne => absurd rfl hne, ?_⟩
      intro g hg
      rcases List.mem_append.mp hg with hg | hg
      · exact h.2.2 g hg
      · rw [List.mem_singleton.mp hg]
        exact (h.2.1 hbuf).1
    · rw [if_neg hs]
      exact ⟨fun _ => rfl, fun hne => absurd rfl hne, h.2.2⟩

lemma step_sweep_tail_pulse_fields (st : PState) (x : Sample) :
    (step_sweep_tail st x).pulse_buf = st.pulse_buf ∧
    (step_sweep_tail st x).pulse_range = st.pulse_range ∧
    (step_sweep_tail st x).pulses = st.pulses ∧
    (step_sweep_tail st x).current_sweep = st.current_sweep ∧
    (step_sweep_tail st x).seq = st.seq ∧
    (step_sweep_tail st x).sweeps = st.sweeps := by
  unfold step_sweep_tail
  split <;> exact ⟨rfl, rfl, rfl, rfl, rfl, rfl⟩

lemma step_inv6 (st : PState) (x : Sample) (h : pulse_set_invariant st) :
    pulse_set_invariant (step st x) := by
  unfold step
  by_cases hl : x.length < 2000
  · rw [if_pos hl]
    have hmain : pulse_set_invariant (if st.pulse_buf = [] then st else flush_pulse st) := by
      by_cases hb : st.pulse_buf = []
      · rw [if_pos hb]; exact h
      · rw [if_neg hb]; exact flush_pulse_inv6 st hb h
    obtain ⟨e1, e2, e3, -, -, -⟩ :=
      step_sweep_tail_pulse_fields (if st.pulse_buf = [] then st else flush_pulse st) x
    refine ⟨?_, ?_, ?_⟩
    · intro hh
      rw [e2]
      exact hmain.1 (by rwa [e1] at hh)
    · intro hh
      rw [e1] at hh
      refine ⟨?_, ?_⟩
      · rw [e1]
        exact (hmain.2.1 hh).1
      · rw [e2, e1]
        exact (hmain.2.1 hh).2
    · intro g hg
      rw [e3] at hg
      exact hmain.2.2 g hg
  · rw [if_neg hl]
    have hst : pulse_set_invariant (store_sweep st) := by
      refine ⟨?_, ?_, ?_⟩
      · rw [store_sweep_pulse_buf, store_sweep_pulse_range]; exact h.1
      · rw [store_sweep_pulse_buf, store_sweep_pulse_range]; exact h.2.1
      · rw [store_sweep_pulses]; exact h.2.2
    unfold step_pulse_tail
    by_cases hadm : (store_sweep st).pulse_buf = [] ∨
        (x.timestamp ≤ (store_sweep st).pulse_range.2 ∧
          (store_sweep st).pulse_range.1 ≤ addu32 x.timestamp x.length)
    · rw [if_pos hadm]
      by_cases hb : (store_sweep st).pulse_buf = []
      · have hr : (store_sweep st).pulse_range = (4294967295, 0) := hst.1 hb
        refine ⟨fun hh => absurd hh (by simp [hb]), fun _ => ?_, hst.2.2⟩
        rw [hb]
        constructor
        · exact chained_singleton x
        · rw [hr]
          rfl
      · have hov := hadm.resolve_left hb
        refine ⟨fun hh => absurd hh (by simp), fun _ => ?_, hst.2.2⟩
        have hch := (hst.2.1 hb).1
        have hrg := (hst.2.1 hb).2
        constructor
        · exact chained_append _ x hch ⟨hrg ▸ hov.1, hrg ▸ hov.2⟩
        · rw [range_of_append, hrg]
          rfl
    · rw [if_neg hadm]
      exact flush_pulse_inv6 (store_sweep st) (fun hh => hadm (Or.inl hh)) hst

/-- C6 (amended): every emitted pulse-group is chained — each member
event after the first overlaps the running span (`pulse_range`) of the
events admitted before it, so the member intervals form a connected
union; pairwise overlap between all members is not guaranteed. -/
theorem claim6_pulse_group_chained (D : List Sample) (g : LightGroup)
    (hg : g ∈ (process_lighthouse_samples D).2) :
    chained g.samples = true := by
  have hinv : pulse_set_invariant (run_state D) :=
    foldl_step_invariant step_inv6 D init_state ⟨fun _ => rfl, fun hne => absurd rfl hne,
      fun g hg => absurd hg (List.not_mem_nil g)⟩
  exact hinv.2.2 g hg

/-- C6 witness: the chained property on the concrete emitted group of
`c6_input`. -/
theorem claim6_witness : chained c6_group.samples = true :=
  claim6_pulse_group_chained c6_input c6_group (by decide)

/-! Lemmas for the sweep-inheritance invariant (C7). -/

lemma flush_pulse_inv7 (st : PState) (hbuf : st.pulse_buf ≠ [])
    (h : sweep_inheritance_invariant st) : sweep_inheritance_invariant (flush_pulse st) := by
  obtain ⟨p, hp, -⟩ :=
    process_pulse_set_isSome st.pulse_buf (halftrunc st.last_pulse_epoch2) hbuf
  rw [flush_pulse_eq st p hp]
  by_cases hc : p.channel = 'e' ∨ st.pulse_buf.length < 5
  · rw [if_pos hc]
    exact ⟨fun hne => absurd rfl hne, h.2⟩
  · rw [if_neg hc]
    by_cases hs : p.skip = 0
    · rw [if_pos hs]
      constructor
      · intro _
        exact ⟨_, List.mem_append_right _ (List.mem_singleton_self _), rfl, rfl, rfl, rfl⟩
      · intro s hsm
        obtain ⟨q, hq, hf⟩ := h.2 s hsm
        exact ⟨q, List.mem_append_left _ hq, hf⟩
    · rw [if_neg hs]
      exact h

lemma store_sweep_inv7 (st : PState) (h : sweep_inheritance_invariant st) :
    sweep_inheritance_invariant (store_sweep st) := by
  rcases store_sweep_cases st with hc | hc | ⟨hcs, hc⟩
  · rw [hc]; exact h
  · rw [hc]; exact h
  · rw [hc]
    constructor
    · exact h.1
    · intro s hsm
      rcases List.mem_append.mp hsm with hsm | hsm
      · exact h.2 s hsm
      · rw [List.mem_singleton.mp hsm]
        obtain ⟨q, hq, h1, h2, h3, h4⟩ := h.1 hcs
        exact ⟨q, hq, h1, h2, h3, h4⟩

lemma step_inv7 (st : PState) (x : Sample) (h : sweep_inheritance_invariant st) :
    sweep_inheritance_invariant (step st x) := by
  unfold step
  by_cases hl : x.length < 2000
  · rw [if_pos hl]
    have hmain : sweep_inheritance_invariant
        (if st.pulse_buf = [] then st else flush_pulse st) := by
      by_cases hb : st.pulse_buf = []
      · rw [if_pos hb]; exact h
      · rw [if_neg hb]; exact flush_pulse_inv7 st hb h
    obtain ⟨-, -, e3, e4, e5, e6⟩ :=
      step_sweep_tail_pulse_fields (if st.pulse_buf = [] then st else flush_pulse st) x
    constructor
    · intro hne
      rw [e4] at hne
      obtain ⟨q, hq, h1, h2, h3, h4⟩ := hmain.1 hne
      exact ⟨q, e3 ▸ hq, by rw [e4]; exact h1, by rw [e4]; exact h2,
        by rw [e4]; exact h3, by rw [e5]; exact h4⟩
    · intro s hsm
      rw [e6] at hsm
      obtain ⟨q, hq, hf⟩ := hmain.2 s hsm
      exact ⟨q, e3 ▸ hq, hf⟩
  · rw [if_neg hl]
    have hst := store_sweep_inv7 st h
    unfold step_pulse_tail
    by_cases hadm : (store_sweep st).pulse_buf = [] ∨
        (x.timestamp ≤ (store_sweep st).pulse_range.2 ∧
          (store_sweep st).pulse_range.1 ≤ addu32 x.timestamp x.length)
    · rw [if_pos hadm]
      exact hst
    · rw [if_neg hadm]
      exact flush_pulse_inv7 (store_sweep st) (fun hh => hadm (Or.inl hh)) hst

/-- C7: for every input stream, every sweep-group emitted by
`process_lighthouse_samples` is matched by an emitted pulse-group with
the same channel, rotor (sweep), epoch and seq. -/
theorem claim7_sweep_inheritance (D : List Sample) (s : LightGroup)
    (hs : s ∈ (process_lighthouse_samples D).1) :
    ∃ p ∈ (process_lighthouse_samples D).2,
      p.channel = s.channel ∧ p.sweep = s.sweep ∧ p.epoch2 = s.epoch2 ∧ p.seq = s.seq := by
  have hinv : sweep_inheritance_invariant (run_state D) :=
    foldl_step_invariant step_inv7 D init_state
      ⟨fun hne => absurd rfl hne, fun s hsm => absurd hsm (List.not_mem_nil s)⟩
  exact hinv.2 s hs

/-- C7 witness: the inheritance statement on the sweep-group emitted by
`c7_input`. -/
theorem claim7_witness :
    ∃ p ∈ (process_lighthouse_samples c7_input).2,
      p.channel = c7_sweep.channel ∧ p.sweep = c7_sweep.sweep ∧
      p.epoch2 = c7_sweep.epoch2 ∧ p.seq = c7_sweep.seq :=
  claim7_sweep_inheritance c7_input c7_sweep (by decide)

/-! Lemmas bounding the collator's per-sensor contributions (C4). -/

lemma collect_sensor_apply_ne (x y : LightGroup) (R : ℕ → VlAngles) (s q : ℕ)
    (h : q ≠ s) : collect_sensor x y R s q = R q := by
  unfold collect_sensor
  split
  · rfl
  · simp only [if_neg h]

lemma collect_sensor_apply_self_le (x y : LightGroup) (R : ℕ → VlAngles) (s : ℕ) :
    (collect_sensor x y R s s).x.length ≤ (R s).x.length + 1 := by
  unfold collect_sensor
  split
  · exact Nat.le_succ _
  · simp

lemma collect_fold_bound (x y : LightGroup) (s : ℕ) :
    ∀ (l : List ℕ), l.Nodup → ∀ R : ℕ → VlAngles,
      ((l.foldl (collect_sensor x y) R) s).x.length ≤
        (R s).x.length + (if s ∈ l then 1 else 0) := by
  intro l
  induction l with
  | nil => intro _ R; simp
  | cons a l ih =>
    intro hnd R
    rw [List.foldl_cons]
    by_cases has : a = s
    · subst has
      have hnotmem : a ∉ l := (List.nodup_cons.mp hnd).1
      have hb := ih (List.nodup_cons.mp hnd).2 (collect_sensor x y R a)
      rw [if_neg hnotmem] at hb
      rw [if_pos (List.mem_cons_self a l)]
      have hself := collect_sensor_apply_self_le x y R a
      omega
    · have hb := ih (List.nodup_cons.mp hnd).2 (collect_sensor x y R a)
      rw [collect_sensor_apply_ne x y R a s (fun hh => has hh.symm)] at hb
      have hii : (if s ∈ a :: l then 1 else 0) = (if s ∈ l then 1 else 0) := by
        by_cases hm : s ∈ l
        · rw [if_pos hm, if_pos (List.mem_cons_of_mem a hm)]
        · have hnm : ¬ s ∈ a :: l := by
            simp only [List.mem_cons, not_or]
            exact ⟨fun hh => has hh.symm, hm⟩
          rw [if_neg hm, if_neg hnm]
      rw [hii]
      exact hb

lemma collect_inner_bound (x y : LightGroup) (R : ℕ → VlAngles) (s : ℕ) :
    ((collect_inner x y R) s).x.length ≤ (R s).x.length + 1 := by
  unfold collect_inner
  have hb := collect_fold_bound x y s (List.range 32) (List.nodup_range 32) R
  split at hb <;> omega

lemma collect_pairs_bound (xs ys : List LightGroup) (R : ℕ → VlAngles) (s : ℕ)
    (hx : xs.length ≤ 1) :
    ((collect_pairs xs ys R) s).x.length ≤ (R s).x.length + 1 := by
  unfold collect_pairs
  rcases Nat.le_one_iff_eq_zero_or_eq_one.mp hx with h0 | h1
  · rw [h0, List.range_zero, List.foldl_nil]
    exact Nat.le_succ _
  · have hr1 : List.range 1 = [0] := rfl
    rw [h1, hr1, List.foldl_cons, List.foldl_nil]
    split
    · exact collect_inner_bound _ _ _ _
    · exact Nat.le_succ _

lemma collect_loop_bound (station : Char) (sweeps : List LightGroup)
    (hH : ∀ i : ℤ, (filter_sweeps sweeps station i 'H').length ≤ 1) :
    ∀ (fuel : ℕ) (i : ℤ) (R : ℕ → VlAngles) (s : ℕ),
      ((collect_loop station sweeps fuel i R) s).x.length ≤ (R s).x.length + fuel := by
  intro fuel
  induction fuel with
  | zero => intro i R s; simp [collect_loop]
  | succ fuel ih =>
    intro i R s
    unfold collect_loop
    split
    · exact Nat.le_add_right _ _
    · have h1 := ih (i + 1)
        (collect_pairs (filter_sweeps sweeps station i 'H') (filter_sweeps sweeps station i 'V') R) s
      have h2 := collect_pairs_bound (filter_sweeps sweeps station i 'H')
        (filter_sweeps sweeps station i 'V') R s (hH i)
      omega

/-- C4 (amended): when at most one H sweep exists per (station, seq)
— the intended situation the spec describes — each sensor contributes
at most one `(x, y, t)` triple per processed sequence, hence at most
`maxseq − 1` in total.  (With duplicated sweeps, the collator pairs the
k-th H sweep with the k-th V sweep for every k, not only entry 0; see
the counterexample.) -/
theorem claim4_at_most_one_triple_per_seq (station : Char) (sweeps : List LightGroup)
    (hH : ∀ i : ℤ, (filter_sweeps sweeps station i 'H').length ≤ 1) (s : ℕ) :
    (collect_readings station sweeps s).x.length ≤ (find_max_seq sweeps - 1).toNat := by
  unfold collect_readings
  have hb := collect_loop_bound station sweeps hH (find_max_seq sweeps - 1).toNat 1
    (fun _ => empty_angles) s
  simp only at hb
  have h0 : empty_angles.x.length = 0 := rfl
  omega

/-- C4 witness: the bound applied to the duplicate-free sweep list
`c4w_sweeps` at sensor 0 (its sequence-1 H filter has one entry, its
sequence-2 filter one entry, every other sequence none). -/
theorem claim4_witness :
    (collect_readings 'B' c4w_sweeps 0).x.length ≤ (find_max_seq c4w_sweeps - 1).toNat :=
  claim4_at_most_one_triple_per_seq 'B' c4w_sweeps
    (fun i => by
      rcases eq_or_ne i 1 with rfl | h1
      · decide
      · rcases eq_or_ne i 2 with rfl | h2
        · decide
        · simp [filter_sweeps, c4w_sweeps, c4_h1, c4_v1, c4_h2, List.filter,
            Ne.symm h1, Ne.symm h2]) 0

end VlLight
